import Mathlib

/-!
Verification of the e-Gov law API client (`src/index.ts`).

The development shallowly embeds the client's pure logic:

* JavaScript primitives used by the source (`parseInt`, number-to-string,
  `('00' + x).slice(-2)`, template-string concatenation) are modelled over
  `List Char` / `String` / `Int`.  `NaN` produced by `parseInt` on a
  digit-free string is modelled as `none : Option Int`.
* The DOM is modelled by a `Node` tree with `textContent`,
  `querySelector` (first matching descendant in document order) and
  `querySelectorAll` (all matching descendants in document order); these
  are the only DOM operations the source uses on payloads.
* `Date` values are modelled as their millisecond timestamp (an `Int`).
  The accessors `getFullYear` / `getMonth` / `getDate` observe the host's
  local time zone per ECMAScript; the embedding makes that environment
  dependence explicit through a fixed offset parameter in minutes
  (540 for UTC+9, the client's intended deployment).  Fixed-offset zones
  such as Asia/Tokyo (no DST) are modelled exactly.
* Fallible decoding (a `TypeError` thrown by reading `.textContent` of a
  `querySelector` miss) is modelled with `Option`; the client facade's
  thrown errors are modelled with `Except ApiError`.
-/

/-! ## JavaScript number/string primitives -/

/-- Whitespace accepted by `parseInt` before the number (the common ASCII
whitespace characters). -/
def jsWhitespaceChar (c : Char) : Bool :=
  c == ' ' || c == '\t' || c == '\n' || c == '\r' || c == Char.ofNat 11 || c == Char.ofNat 12

/-- Value of a decimal digit character. -/
def decDigitVal (c : Char) : Nat := c.toNat - 48

/-- Numeric value of a list of decimal digit characters (most significant
first). -/
def decimalValue (l : List Char) : Nat :=
  l.foldl (fun a c => 10 * a + decDigitVal c) 0

def isHexDigitChar (c : Char) : Bool :=
  c.isDigit || ('a' ≤ c && c ≤ 'f') || ('A' ≤ c && c ≤ 'F')

def hexDigitVal (c : Char) : Nat :=
  if c.isDigit then c.toNat - 48
  else if 'a' ≤ c && c ≤ 'f' then c.toNat - 87
  else c.toNat - 55

/-- Numeric value of a list of hexadecimal digit characters. -/
def hexValue (l : List Char) : Nat :=
  l.foldl (fun a c => 16 * a + hexDigitVal c) 0

/-- Model of JavaScript `parseInt(s)` (no explicit radix): skip leading
whitespace, read an optional sign, detect a `0x`/`0X` prefix (hexadecimal)
and otherwise read the longest prefix of decimal digits; `NaN` (modelled
as `none`) when no digit follows. -/
def jsParseInt (s : String) : Option Int :=
  let cs := s.toList.dropWhile jsWhitespaceChar
  let sg : Int := if cs.head? = some '-' then -1 else 1
  let cs1 := if cs.head? = some '-' ∨ cs.head? = some '+' then cs.tail else cs
  if (cs1.take 2).map Char.toLower = ['0', 'x'] then
    let ds := (cs1.drop 2).takeWhile isHexDigitChar
    if ds.isEmpty then none else some (sg * (hexValue ds : Int))
  else
    let ds := cs1.takeWhile Char.isDigit
    if ds.isEmpty then none else some (sg * (decimalValue ds : Int))

/-- Little-endian decimal digits of a natural number; the first argument is
fuel so the recursion is structural (the fuel `n` always suffices). -/
def natDigitsAux : Nat → Nat → List Nat
  | _, 0 => []
  | 0, _ + 1 => []
  | fuel + 1, n + 1 => (n + 1) % 10 :: natDigitsAux fuel ((n + 1) / 10)

/-- Little-endian decimal digits of a natural number (empty for `0`). -/
def decimalDigits (n : Nat) : List Nat := natDigitsAux n n

/-- Character for a decimal digit. -/
def decDigitChar (d : Nat) : Char := Char.ofNat (48 + d)

/-- Decimal numeral of a natural number; models ECMAScript `ToString`
applied to an integral `Number`. -/
def decimalRepr (n : Nat) : String :=
  if n = 0 then "0" else String.mk (((decimalDigits n).map decDigitChar).reverse)

/-- Decimal numeral of an integer (sign included); models ECMAScript
`ToString` applied to an integral `Number`, as used by template strings. -/
def intRepr (v : Int) : String :=
  if v < 0 then "-" ++ decimalRepr v.natAbs else decimalRepr v.natAbs

/-- Model of the source's `('00' + x).slice(-2)` zero-padding idiom applied
to a string `s` (here `s` is `'00' + x` already): the last two characters.
The characters involved are ASCII digits, so UTF-16 units coincide with
`Char`s. -/
def jsSliceLast2 (s : String) : String :=
  String.mk (s.toList.drop (s.toList.length - 2))

/-! ## DOM model -/

/-- An XML DOM node: a text node or an element with a tag and child nodes. -/
inductive Node : Type where
  | text : String → Node
  | elem : String → List Node → Node

mutual

/-- Concatenated text of all descendant text nodes, in document order
(DOM `textContent`). -/
def Node.textContent : Node → String
  | .text s => s
  | .elem _ cs => Node.textContentList cs

def Node.textContentList : List Node → String
  | [] => ""
  | n :: ns => n.textContent ++ Node.textContentList ns

end

mutual

/-- The node itself (when it is an element with the given tag) followed by
its matching descendants, in document order. -/
def Node.selfAndDescendants (tag : String) : Node → List Node
  | .text _ => []
  | .elem t cs =>
    (if t = tag then [Node.elem t cs] else []) ++ Node.descendantsList tag cs

def Node.descendantsList (tag : String) : List Node → List Node
  | [] => []
  | n :: ns => Node.selfAndDescendants tag n ++ Node.descendantsList tag ns

end

/-- DOM `querySelectorAll` with a type selector: all descendant elements with
the given tag, in document order (the element itself is not a candidate). -/
def Node.querySelectorAll (e : Node) (tag : String) : List Node :=
  match e with
  | .text _ => []
  | .elem _ cs => Node.descendantsList tag cs

/-- DOM `querySelector` with a type selector: the first descendant element
with the given tag in document order, if any. -/
def Node.querySelector (e : Node) (tag : String) : Option Node :=
  (e.querySelectorAll tag).head?

/-! ## Date model

Timestamps are milliseconds since the Unix epoch.  The civil-calendar
conversions below implement the standard proleptic-Gregorian day/date
correspondence (Euclidean division by a positive divisor is floor
division, matching ECMAScript's `Math.floor`-based internal
`YearFromTime` / `MonthFromTime` / `DateFromTime`). -/

def msPerDay : Int := 86400000

def jstOffsetMs : Int := 9 * 3600000

/-- Civil date `(year, month, day)` of a day number (days since
1970-01-01). -/
def civilFromDays (z : Int) : Int × Int × Int :=
  let z' := z + 719468
  let era := z' / 146097
  let doe := z' - era * 146097
  let yoe := (doe - doe / 1460 + doe / 36524 - doe / 146096) / 365
  let y := yoe + era * 400
  let doy := doe - (365 * yoe + yoe / 4 - yoe / 100)
  let mp := (5 * doy + 2) / 153
  let d := doy - (153 * mp + 2) / 5 + 1
  let m := mp + (if mp < 10 then 3 else -9)
  (y + (if m ≤ 2 then 1 else 0), m, d)

/-- Day number (days since 1970-01-01) of a civil date. -/
def daysFromCivil (y m d : Int) : Int :=
  let y' := if m ≤ 2 then y - 1 else y
  let era := y' / 400
  let yoe := y' - era * 400
  let mp := if m ≤ 2 then m + 9 else m - 3
  let doy := (153 * mp + 2) / 5 + d - 1
  let doe := yoe * 365 + yoe / 4 - yoe / 100 + doy
  era * 146097 + doe - 719468

/-- Local day number of a timestamp under a host time-zone offset given in
minutes east of UTC. -/
def localDay (tzMin t : Int) : Int := (t + tzMin * 60000) / msPerDay

/-- Local civil date of a timestamp under a host time-zone offset. -/
def localCivil (tzMin t : Int) : Int × Int × Int := civilFromDays (localDay tzMin t)

/-- Model of `Date.prototype.getFullYear` (local time). -/
def jsGetFullYear (tzMin t : Int) : Int := (localCivil tzMin t).1

/-- Model of `Date.prototype.getMonth` (local time, 0-based month). -/
def jsGetMonth (tzMin t : Int) : Int := (localCivil tzMin t).2.1 - 1

/-- Model of `Date.prototype.getDate` (local time, day of month). -/
def jsGetDate (tzMin t : Int) : Int := (localCivil tzMin t).2.2

/-- Timestamp of `new Date('2020-11-24T00:00:00.000+09:00')`, the lower
bound checked by `getUpdatelawlists`. -/
def minUpdateDateMs : Int := daysFromCivil 2020 11 24 * msPerDay - jstOffsetMs

def isLeapYear (y : Int) : Bool :=
  (y % 4 == 0 && y % 100 != 0) || y % 400 == 0

def daysInMonth (y m : Int) : Int :=
  if m = 2 then (if isLeapYear y then 29 else 28)
  else if m = 4 ∨ m = 6 ∨ m = 9 ∨ m = 11 then 30
  else 31

/-- Read a non-empty all-digit character list as a natural number. -/
def parseDecDigits (l : List Char) : Option Nat :=
  if l ≠ [] ∧ l.all Char.isDigit then some (decimalValue l) else none

/-- Model of `new Date(d.slice(0,4) + '-' + d.slice(4,6) + '-' + d.slice(6,8)
+ 'T00:00:00.000+09:00')` as used on `PromulgationDate` text: an ISO date at
midnight in the fixed +09:00 offset.  The constructor yields an Invalid Date
(modelled `none`) unless the slices are 4/2/2 decimal digits forming an
existing calendar date. -/
def parseYMDJst (s : String) : Option Int :=
  let cs := s.toList
  let ys := cs.take 4
  let ms := (cs.drop 4).take 2
  let ds := (cs.drop 6).take 2
  if ys.length = 4 ∧ ms.length = 2 ∧ ds.length = 2 then
    match parseDecDigits ys, parseDecDigits ms, parseDecDigits ds with
    | some y, some m, some d =>
      if 1 ≤ (m : Int) ∧ (m : Int) ≤ 12 ∧ 1 ≤ (d : Int) ∧ (d : Int) ≤ daysInMonth y m then
        some (daysFromCivil y m d * msPerDay - jstOffsetMs)
      else none
    | _, _, _ => none
  else none

/-! ## Typed records (one per payload shape, fields as in the source)

Integer-typed fields filled from `parseInt` are `Option Int` (`none` models
`NaN`); `Date`-typed fields are `Option Int` timestamps (`none` models an
Invalid Date); optional fields are `Option` (`none` models an absent /
`undefined` value). -/

/-- Status envelope (source class `Result`). -/
structure Result where
  code : Option Int
  message : String
deriving DecidableEq, Repr

/-- One entry of the law-name list (source class `LawNameListInfo`). -/
structure LawNameListInfo where
  LawId : String
  LawName : String
  LawNo : String
  PromulgationDate : Option Int
deriving DecidableEq, Repr

/-- Law-list payload (source class `Lawlists`). -/
structure Lawlists where
  Category : Option Int
  LawNameListInfo : List LawNameListInfo
deriving DecidableEq, Repr

/-- Law-data payload (source class `Lawdata`). -/
structure Lawdata where
  LawId : String
  LawNum : String
  LawFullText : String
  ImageData : Option String
deriving DecidableEq, Repr

/-- The candidate appendix-table title list nested in `Articles`. -/
structure AppdxTitles where
  AppdxTableTitle : List String
deriving DecidableEq, Repr

/-- Articles payload (source class `Articles`). -/
structure Articles where
  LawId : String
  LawNum : String
  Article : String
  Paragraph : String
  AppdxTable : String
  LawContents : String
  AppdxTableTitleLists : Option AppdxTitles
  ImageData : Option String
deriving DecidableEq, Repr

/-- One entry of the updated-law list (source class `LawNameListInfo2`). -/
structure LawNameListInfo2 where
  LawTypeName : Option Int
  LawNo : String
  LawName : String
  LawNameKana : String
  OldLawName : String
  PromulgationDate : Option Int
  AmendName : String
  AmendNo : String
  AmendPromulgationDate : String
  EnforcementDate : String
  EnforcementComment : String
  LawId : String
  LawUrl : String
  EnforcementFlg : Option Int
  AuthFlg : Option Int
deriving DecidableEq, Repr

/-- Updated-law-list payload (source class `Updatelawlists`).  The entry
list is declared optional in the source (`LawNameListInfo?`), hence
`Option`. -/
structure Updatelawlists where
  Date : Option Int
  LawNameListInfo : Option (List LawNameListInfo2)
deriving DecidableEq, Repr

/-! ## Decoders (the `fromElement` statics, in source reading order)

Reading `.textContent` off a missed `querySelector` throws in the source;
each such required lookup is an `Option` bind here, so a missing required
child makes the whole decoder return `none`. -/

/-- Decoder for the status envelope (source `Result.fromElement`). -/
def Result.fromElement (result : Node) : Option Result := do
  let code ← result.querySelector "Code"
  let msg ← result.querySelector "Message"
  pure { code := jsParseInt code.textContent, message := msg.textContent }

/-- Decoder for one law-list entry (source `LawNameListInfo.fromElement`). -/
def LawNameListInfo.fromElement (info : Node) : Option LawNameListInfo := do
  let lawId ← info.querySelector "LawId"
  let lawName ← info.querySelector "LawName"
  let lawNo ← info.querySelector "LawNo"
  let d ← info.querySelector "PromulgationDate"
  pure { LawId := lawId.textContent, LawName := lawName.textContent,
         LawNo := lawNo.textContent,
         PromulgationDate := parseYMDJst d.textContent }

/-- Decoder for the law-list payload (source `Lawlists.fromElement`). -/
def Lawlists.fromElement (e : Node) : Option Lawlists := do
  let cat ← e.querySelector "Category"
  let infos := e.querySelectorAll "LawNameListInfo"
  let l ← infos.mapM LawNameListInfo.fromElement
  pure { Category := jsParseInt cat.textContent, LawNameListInfo := l }

/-- Decoder for the law-data payload (source `Lawdata.fromElement`);
`ImageData` is read with optional chaining (`?.textContent`). -/
def Lawdata.fromElement (e : Node) : Option Lawdata := do
  let lawId ← e.querySelector "LawId"
  let lawNum ← e.querySelector "LawNum"
  let fullText ← e.querySelector "LawFullText"
  pure { LawId := lawId.textContent, LawNum := lawNum.textContent,
         LawFullText := fullText.textContent,
         ImageData := (e.querySelector "ImageData").map Node.textContent }

/-- Decoder for the articles payload (source `Articles.fromElement`);
`AppdxTableTitleLists` is probed with an existence check and `ImageData`
with optional chaining. -/
def Articles.fromElement (e : Node) : Option Articles := do
  let lawId ← e.querySelector "LawId"
  let lawNum ← e.querySelector "LawNum"
  let article ← e.querySelector "Article"
  let paragraph ← e.querySelector "Paragraph"
  let appdxTable ← e.querySelector "AppdxTable"
  let contents ← e.querySelector "LawContents"
  let titles := (e.querySelector "AppdxTableTitleLists").map fun a =>
    { AppdxTableTitle := (a.querySelectorAll "AppdxTableTitle").map Node.textContent : AppdxTitles }
  pure { LawId := lawId.textContent, LawNum := lawNum.textContent,
         Article := article.textContent, Paragraph := paragraph.textContent,
         AppdxTable := appdxTable.textContent, LawContents := contents.textContent,
         AppdxTableTitleLists := titles,
         ImageData := (e.querySelector "ImageData").map Node.textContent }

/-- Decoder for one updated-law entry (source
`LawNameListInfo2.fromElement`).  Every lookup is required; the record is
produced exactly when all fifteen lookups succeed, which is the source's
sequence of throwing `querySelector(..).textContent` reads. -/
def LawNameListInfo2.fromElement (info : Node) : Option LawNameListInfo2 :=
  match info.querySelector "LawTypeName", info.querySelector "LawNo",
      info.querySelector "LawName", info.querySelector "LawNameKana",
      info.querySelector "OldLawName", info.querySelector "PromulgationDate",
      info.querySelector "AmendName", info.querySelector "AmendNo",
      info.querySelector "AmendPromulgationDate", info.querySelector "EnforcementDate",
      info.querySelector "EnforcementComment", info.querySelector "LawId",
      info.querySelector "LawUrl", info.querySelector "EnforcementFlg",
      info.querySelector "AuthFlg" with
  | some lawTypeName, some lawNo, some lawName, some lawNameKana, some oldLawName,
    some d, some amendName, some amendNo, some amendProm, some enfDate,
    some enfComment, some lawId, some lawUrl, some enfFlg, some authFlg =>
    some { LawTypeName := jsParseInt lawTypeName.textContent,
           LawNo := lawNo.textContent, LawName := lawName.textContent,
           LawNameKana := lawNameKana.textContent, OldLawName := oldLawName.textContent,
           PromulgationDate := parseYMDJst d.textContent,
           AmendName := amendName.textContent, AmendNo := amendNo.textContent,
           AmendPromulgationDate := amendProm.textContent,
           EnforcementDate := enfDate.textContent,
           EnforcementComment := enfComment.textContent,
           LawId := lawId.textContent, LawUrl := lawUrl.textContent,
           EnforcementFlg := jsParseInt enfFlg.textContent,
           AuthFlg := jsParseInt authFlg.textContent }
  | _, _, _, _, _, _, _, _, _, _, _, _, _, _, _ => none

/-- Decoder for the updated-law-list payload (source
`Updatelawlists.fromElement`): the optional field is nevertheless always
assigned a (possibly empty) mapped list. -/
def Updatelawlists.fromElement (e : Node) : Option Updatelawlists := do
  let date ← e.querySelector "Date"
  let infos := e.querySelectorAll "LawNameListInfo"
  let l ← infos.mapM LawNameListInfo2.fromElement
  pure { Date := jsParseInt date.textContent, LawNameListInfo := some l }

/-! ## Client facade (class `ELaws`)

The transport (`fetch` + XML parse + envelope/payload location, the
source's `request` method) is an external capability; the facade is
parameterised over it as a function from the request URL to the decoded
envelope together with the payload element. -/

/-- Errors thrown by the facade: `RangeError` on date validation,
`Error(res.message)` on an unacceptable status code, and the `TypeError`
of a failed required lookup inside a payload decoder. -/
inductive ApiError where
  | rangeError (msg : String)
  | protocolError (msg : String)
  | decodeError
deriving DecidableEq, Repr

/-- Lift a decoder result into the facade's error monad. -/
def decodeStep {α : Type} (o : Option α) : Except ApiError α :=
  match o with
  | some v => .ok v
  | none => .error .decodeError

def apiVersion : Nat := 1

/-- Source: ``baseUrl = `https://elaws.e-gov.go.jp/api/${this.version}` ``. -/
def baseUrl : String := "https://elaws.e-gov.go.jp/api/" ++ decimalRepr apiVersion

/-- Stage of `getLawlists` after the transport returned: accept only status
code `0`, then decode the payload. -/
def processLawlists (res : Result) (data : Node) : Except ApiError Lawlists :=
  if res.code ≠ some 0 then .error (.protocolError res.message)
  else decodeStep (Lawlists.fromElement data)

/-- Stage of `getLawdata` after the transport returned. -/
def processLawdata (res : Result) (data : Node) : Except ApiError Lawdata :=
  if res.code ≠ some 0 then .error (.protocolError res.message)
  else decodeStep (Lawdata.fromElement data)

/-- Stage of `getArticles` after the transport returned: accept status
codes `0` and `2`. -/
def processArticles (res : Result) (data : Node) : Except ApiError Articles :=
  if res.code ≠ some 0 ∧ res.code ≠ some 2 then .error (.protocolError res.message)
  else decodeStep (Articles.fromElement data)

/-- Stage of `getUpdatelawlists` after the transport returned. -/
def processUpdatelawlists (res : Result) (data : Node) : Except ApiError Updatelawlists :=
  if res.code ≠ some 0 then .error (.protocolError res.message)
  else decodeStep (Updatelawlists.fromElement data)

/-- Source `getLawlists`. -/
def getLawlists (transport : String → Result × Node) (kind : Int) : Except ApiError Lawlists :=
  let uri := baseUrl ++ "/lawlists/" ++ intRepr kind
  let rd := transport uri
  processLawlists rd.1 rd.2

/-- Source `getLawdata`. -/
def getLawdata (transport : String → Result × Node) (id : String) : Except ApiError Lawdata :=
  let uri := baseUrl ++ "/lawdata/" ++ id
  let rd := transport uri
  processLawdata rd.1 rd.2

/-- The parameter segment built by `getArticles`:
`Object.entries(params).map(([k, v]) => k + '=' + v)` joined with `';'`.
A parameter record is its entry list (JavaScript object insertion order =
declared field order). -/
def articlesParamSegment (params : List (String × String)) : String :=
  String.intercalate ";" (params.map fun kv => kv.1 ++ "=" ++ kv.2)

/-- The full request URI built by `getArticles`. -/
def articlesUri (params : List (String × String)) : String :=
  baseUrl ++ "/articles;" ++ articlesParamSegment params

/-- Source `getArticles`. -/
def getArticles (transport : String → Result × Node) (params : List (String × String)) :
    Except ApiError Articles :=
  let rd := transport (articlesUri params)
  processArticles rd.1 rd.2

/-- Message of the `RangeError` thrown for a date before 2020-11-24. -/
def tooEarlyMsg : String := "指定可能な年月日は 2020 年 11 月 24 日以降です。"

/-- Message of the `RangeError` thrown for a date in the future. -/
def futureMsg : String := "未来の日付は指定できません。"

/-- The `YYYYMMDD` path segment built by `getUpdatelawlists` from the local
calendar date of the input (lines 82–85 of the source): unpadded
`getFullYear`, and `getMonth() + 1` / `getDate()` zero-padded with the
`('00' + x).slice(-2)` idiom. -/
def updateSegment (tzMin t : Int) : String :=
  intRepr (jsGetFullYear tzMin t) ++
  jsSliceLast2 ("00" ++ intRepr (jsGetMonth tzMin t + 1)) ++
  jsSliceLast2 ("00" ++ intRepr (jsGetDate tzMin t))

/-- The full request URI built by `getUpdatelawlists`. -/
def updateUri (tzMin t : Int) : String :=
  baseUrl ++ "/updatelawlists/" ++ updateSegment tzMin t

/-- Source `getUpdatelawlists`: range-check the date (against the fixed
minimum and against `new Date()`, the current instant `nowMs`) before any
transport activity, then build the URI, call the transport and process the
response.  The input date is a valid (non-NaN) timestamp. -/
def getUpdatelawlists (tzMin nowMs : Int) (transport : String → Result × Node)
    (dateMs : Int) : Except ApiError Updatelawlists :=
  if dateMs < minUpdateDateMs then .error (.rangeError tooEarlyMsg)
  else if nowMs < dateMs then .error (.rangeError futureMsg)
  else
    let rd := transport (updateUri tzMin dateMs)
    processUpdatelawlists rd.1 rd.2

/-! ## Concrete payload elements and records used in the proofs -/

/-- Element with a single text child, for building concrete payload
elements. -/
def leafE (tag s : String) : Node := .elem tag [.text s]

/-- An updated-law entry element whose fifteen children carry the given
texts, in the source's reading order. -/
def mkInfo2Element (a1 a2 a3 a4 a5 a6 a7 a8 a9 a10 a11 a12 a13 a14 a15 : String) : Node :=
  .elem "LawNameListInfo"
    [leafE "LawTypeName" a1, leafE "LawNo" a2, leafE "LawName" a3,
     leafE "LawNameKana" a4, leafE "OldLawName" a5, leafE "PromulgationDate" a6,
     leafE "AmendName" a7, leafE "AmendNo" a8, leafE "AmendPromulgationDate" a9,
     leafE "EnforcementDate" a10, leafE "EnforcementComment" a11, leafE "LawId" a12,
     leafE "LawUrl" a13, leafE "EnforcementFlg" a14, leafE "AuthFlg" a15]

/-- A status envelope element whose `Code` text is not a parseable
integer. -/
def resultElemBadCode : Node :=
  .elem "Result" [leafE "Code" "abc", leafE "Message" "m"]

/-- A law-data payload element with `LawId` absent. -/
def lawdataElemMissingId : Node :=
  .elem "ApplData" [leafE "LawNum" "n", leafE "LawFullText" "t"]

/-- An articles payload element carrying the required children and
neither optional one. -/
def articlesElemNoOptionals : Node :=
  .elem "ApplData" [leafE "LawId" "i", leafE "LawNum" "n", leafE "Article" "a",
    leafE "Paragraph" "p", leafE "AppdxTable" "t", leafE "LawContents" "c"]

/-- The record decoded from `articlesElemNoOptionals`. -/
def articlesRecNoOptionals : Articles :=
  { LawId := "i", LawNum := "n", Article := "a", Paragraph := "p", AppdxTable := "t",
    LawContents := "c", AppdxTableTitleLists := none, ImageData := none }

/-- An update-list payload element with no `LawNameListInfo` children. -/
def updateElemNoInfos : Node := .elem "ApplData" [leafE "Date" "20201124"]

/-- The record decoded from `updateElemNoInfos`. -/
def updateRecNoInfos : Updatelawlists := { Date := some 20201124, LawNameListInfo := some [] }

/-! ## Specification-side shape of the update-list date segment -/

/-- Modelled from the spec: a zero-padded two-digit field of the
`YYYYMMDD` segment. -/
def specPad2 (v : Int) : String :=
  if v < 10 then "0" ++ intRepr v else intRepr v

/-- Modelled from the spec: the update-list path segment is the 8-digit
`YYYYMMDD` writing of the input's calendar date as observed in the fixed
UTC+9 offset. -/
def specUpdateSegment (t : Int) : String :=
  intRepr (civilFromDays ((t + jstOffsetMs) / msPerDay)).1 ++
  specPad2 (civilFromDays ((t + jstOffsetMs) / msPerDay)).2.1 ++
  specPad2 (civilFromDays ((t + jstOffsetMs) / msPerDay)).2.2

/-- Last millisecond of 9999-12-31 in the fixed UTC+9 offset: the largest
timestamp whose JST calendar year still has a four-digit numeral. -/
def endOfYear9999JstMs : Int := daysFromCivil 10000 1 1 * msPerDay - jstOffsetMs - 1

/-! ## Lemmas about the decimal numeral primitives -/

theorem natDigitsAux_eq (fuel : Nat) : ∀ n : Nat, n ≤ fuel → natDigitsAux fuel n = Nat.digits 10 n := by
  induction fuel with
  | zero =>
    intro n hn
    have : n = 0 := Nat.le_zero.mp hn
    subst this
    simp [natDigitsAux]
  | succ f ih =>
    intro n hn
    match n with
    | 0 => simp [natDigitsAux]
    | n + 1 =>
      rw [natDigitsAux, Nat.digits_def' (by norm_num : (1:Nat) < 10) (Nat.succ_pos n)]
      congr 1
      exact ih ((n + 1) / 10) (by omega)

theorem decimalDigits_eq (n : Nat) : decimalDigits n = Nat.digits 10 n :=
  natDigitsAux_eq n n le_rfl

/-- The handful of facts about a digit character that the `parseInt`
round-trip needs. -/
theorem decDigitChar_facts (d : Nat) (hd : d < 10) :
    (decDigitChar d).isDigit = true ∧ decDigitVal (decDigitChar d) = d ∧
    jsWhitespaceChar (decDigitChar d) = false ∧ decDigitChar d ≠ '-' ∧
    decDigitChar d ≠ '+' ∧ (decDigitChar d).toLower ≠ 'x' := by
  interval_cases d <;> exact ⟨rfl, rfl, rfl, by decide, by decide, by decide⟩

theorem mem_digitChars {l : List Nat} (hl : ∀ d ∈ l, d < 10) {c : Char}
    (hc : c ∈ (l.map decDigitChar).reverse) : ∃ d, d < 10 ∧ c = decDigitChar d := by
  rw [List.mem_reverse, List.mem_map] at hc
  obtain ⟨d, hd, rfl⟩ := hc
  exact ⟨d, hl d hd, rfl⟩

theorem takeWhile_of_all {p : Char → Bool} : ∀ l : List Char, (∀ c ∈ l, p c = true) → l.takeWhile p = l := by
  intro l h
  induction l with
  | nil => rfl
  | cons a t ih =>
    rw [List.takeWhile_cons, h a (by simp)]
    simp [ih fun c hc => h c (by simp [hc])]

theorem decimalValue_rev (l : List Nat) (h : ∀ d ∈ l, d < 10) :
    decimalValue ((l.map decDigitChar).reverse) = Nat.ofDigits 10 l := by
  induction l with
  | nil => simp [decimalValue, Nat.ofDigits]
  | cons d ds ih =>
    simp only [List.map_cons, List.reverse_cons]
    unfold decimalValue at ih ⊢
    rw [List.foldl_append, List.foldl_cons, List.foldl_nil,
      ih (fun x hx => h x (by simp [hx])),
      (decDigitChar_facts d (h d (by simp))).2.1, Nat.ofDigits_cons]
    ring

theorem dropWhile_digitChars {L : List Char}
    (hmem : ∀ c ∈ L, ∃ d, d < 10 ∧ c = decDigitChar d) :
    L.dropWhile jsWhitespaceChar = L := by
  cases L with
  | nil => rfl
  | cons a t =>
    obtain ⟨d, hd, rfl⟩ := hmem a (by simp)
    rw [List.dropWhile_cons, (decDigitChar_facts d hd).2.2.1]
    simp

/-- Parsing the part after sign handling: a non-empty all-digit list never
triggers the hexadecimal branch and is consumed whole by the decimal
branch. -/
theorem parse_after_sign (L : List Char) (hL : L ≠ [])
    (hmem : ∀ c ∈ L, ∃ d, d < 10 ∧ c = decDigitChar d) (sg : Int) :
    (if (L.take 2).map Char.toLower = ['0', 'x'] then
       (if ((L.drop 2).takeWhile isHexDigitChar).isEmpty then none
        else some (sg * (hexValue ((L.drop 2).takeWhile isHexDigitChar) : Int)))
     else
       (if (L.takeWhile Char.isDigit).isEmpty then none
        else some (sg * (decimalValue (L.takeWhile Char.isDigit) : Int)))) =
    some (sg * (decimalValue L : Int)) := by
  obtain ⟨c0, L', rfl⟩ := List.exists_cons_of_ne_nil hL
  have hguard : ¬((c0 :: L').take 2).map Char.toLower = ['0', 'x'] := by
    cases L' with
    | nil => simp
    | cons c1 L'' =>
      obtain ⟨d1, hd1, rfl⟩ := hmem c1 (by simp)
      intro h
      simp only [List.take, List.map, List.cons.injEq, and_true] at h
      exact (decDigitChar_facts d1 hd1).2.2.2.2.2 h.2
  rw [if_neg hguard, takeWhile_of_all _ (fun c hc => by
    obtain ⟨d, hd, rfl⟩ := hmem c hc
    exact (decDigitChar_facts d hd).1)]
  simp

theorem jsParseInt_digitList (L : List Char) (hL : L ≠ [])
    (hmem : ∀ c ∈ L, ∃ d, d < 10 ∧ c = decDigitChar d) :
    jsParseInt (String.mk L) = some (decimalValue L : Int) := by
  obtain ⟨c0, L', rfl⟩ := List.exists_cons_of_ne_nil hL
  obtain ⟨d0, hd0, hc0⟩ := hmem c0 (by simp)
  have hm : ¬((c0 :: L').head? = some '-') := by
    simp only [List.head?_cons, Option.some.injEq]
    rw [hc0]; exact (decDigitChar_facts d0 hd0).2.2.2.1
  have hp : ¬((c0 :: L').head? = some '+') := by
    simp only [List.head?_cons, Option.some.injEq]
    rw [hc0]; exact (decDigitChar_facts d0 hd0).2.2.2.2.1
  have hor : ¬((c0 :: L').head? = some '-' ∨ (c0 :: L').head? = some '+') := by
    rintro (h | h)
    · exact hm h
    · exact hp h
  simp only [jsParseInt, String.toList, dropWhile_digitChars hmem, if_neg hm, if_neg hor]
  rw [parse_after_sign _ (by simp) hmem 1, one_mul]

theorem digitChars_ne_nil {n : Nat} (hn : n ≠ 0) :
    ((Nat.digits 10 n).map decDigitChar).reverse ≠ [] := by
  simp only [ne_eq, List.reverse_eq_nil_iff, List.map_eq_nil_iff]
  exact Nat.digits_ne_nil_iff_ne_zero.mpr hn

theorem digitChars_mem {n : Nat} {c : Char}
    (hc : c ∈ ((Nat.digits 10 n).map decDigitChar).reverse) :
    ∃ d, d < 10 ∧ c = decDigitChar d :=
  mem_digitChars (fun d hd => Nat.digits_lt_base (by norm_num) hd) hc

/-- Parsing the canonical decimal numeral of a natural number returns the
number. -/
theorem jsParseInt_decimalRepr (n : Nat) : jsParseInt (decimalRepr n) = some (n : Int) := by
  by_cases hn : n = 0
  · subst hn; decide
  · rw [decimalRepr, if_neg hn, decimalDigits_eq]
    rw [jsParseInt_digitList _ (digitChars_ne_nil hn) (fun c hc => digitChars_mem hc)]
    rw [decimalValue_rev _ (fun d hd => Nat.digits_lt_base (by norm_num) hd),
      Nat.ofDigits_digits]

/-- Parsing the canonical decimal numeral of an integer returns the
integer: the lenient integer-field decoding round-trip. -/
theorem jsParseInt_intRepr (v : Int) : jsParseInt (intRepr v) = some v := by
  by_cases hv : v < 0
  · have hm : v.natAbs ≠ 0 := by omega
    rw [intRepr, if_pos hv, decimalRepr, if_neg hm, decimalDigits_eq]
    set L := ((Nat.digits 10 v.natAbs).map decDigitChar).reverse with hLdef
    have hmem : ∀ c ∈ L, ∃ d, d < 10 ∧ c = decDigitChar d := fun c hc => digitChars_mem hc
    have hcons : ("-" ++ String.mk L) = String.mk ('-' :: L) := rfl
    rw [hcons]
    have hdw : ('-' :: L).dropWhile jsWhitespaceChar = '-' :: L := by
      rw [List.dropWhile_cons]
      simp [jsWhitespaceChar]
    have hsign : ('-' :: L).head? = some '-' := rfl
    simp only [jsParseInt, String.toList, hdw, hsign, if_pos rfl,
      or_iff_left_iff_imp, List.tail_cons]
    simp only [true_or, if_true, List.tail_cons]
    rw [parse_after_sign L (digitChars_ne_nil hm) hmem (-1)]
    rw [decimalValue_rev _ (fun d hd => Nat.digits_lt_base (by norm_num) hd),
      Nat.ofDigits_digits]
    congr 1
    omega
  · rw [intRepr, if_neg hv]
    rw [jsParseInt_decimalRepr]
    congr 1
    omega

/-! ## Lemmas about the calendar conversions -/

/-- The month of any converted day number lies in `1..12` and the day in
`1..31`. -/
theorem civilFromDays_month_day_bounds (z : Int) :
    1 ≤ (civilFromDays z).2.1 ∧ (civilFromDays z).2.1 ≤ 12 ∧
    1 ≤ (civilFromDays z).2.2 ∧ (civilFromDays z).2.2 ≤ 31 := by
  simp only [civilFromDays]
  split_ifs <;> omega

/-- On day numbers between 2020-11-24 and 9999-12-31 the converted year
lies in `1000..9999` (so its numeral is four digits long). -/
theorem civilFromDays_year_bounds (z : Int) (h1 : 18590 ≤ z) (h2 : z ≤ 2932896) :
    2020 ≤ (civilFromDays z).1 ∧ (civilFromDays z).1 ≤ 9999 := by
  simp only [civilFromDays]
  split_ifs <;> omega

theorem str_toList_append (s t : String) : (s ++ t).toList = s.toList ++ t.toList :=
  String.data_append s t

theorem decimalRepr_toList (n : Nat) (hn : n ≠ 0) :
    (decimalRepr n).toList = ((Nat.digits 10 n).map decDigitChar).reverse := by
  rw [decimalRepr, if_neg hn, decimalDigits_eq]
  rfl

theorem decimalRepr_length_four {n : Nat} (h1 : 1000 ≤ n) (h2 : n ≤ 9999) :
    (decimalRepr n).toList.length = 4 := by
  rw [decimalRepr_toList n (by omega), List.length_reverse, List.length_map,
    Nat.digits_len 10 n (by norm_num) (by omega),
    @Nat.log_eq_of_pow_le_of_lt_pow 10 3 n (by norm_num; omega) (by norm_num; omega)]

theorem decimalRepr_all_digits (n : Nat) :
    ∀ c ∈ (decimalRepr n).toList, c.isDigit = true := by
  by_cases hn : n = 0
  · subst hn; decide
  · intro c hc
    rw [decimalRepr_toList n hn] at hc
    obtain ⟨d, hd, rfl⟩ := digitChars_mem hc
    exact (decDigitChar_facts d hd).1

theorem intRepr_nonneg_eq (v : Int) (hv : 0 ≤ v) : intRepr v = decimalRepr v.natAbs := by
  rw [intRepr, if_neg (by omega)]

theorem jsPad2_eq_specPad2 (v : Int) (h1 : 1 ≤ v) (h2 : v ≤ 31) :
    jsSliceLast2 ("00" ++ intRepr v) = specPad2 v := by
  interval_cases v <;> decide

theorem specPad2_length (v : Int) (h1 : 1 ≤ v) (h2 : v ≤ 31) :
    (specPad2 v).toList.length = 2 := by
  interval_cases v <;> decide

theorem specPad2_all_digits (v : Int) (h1 : 1 ≤ v) (h2 : v ≤ 31) :
    ∀ c ∈ (specPad2 v).toList, c.isDigit = true := by
  interval_cases v <;> decide

theorem localDay_jst (t : Int) : localDay 540 t = (t + jstOffsetMs) / msPerDay := by
  norm_num [localDay, jstOffsetMs, msPerDay]

theorem jstDay_lower {t : Int} (h1 : minUpdateDateMs ≤ t) :
    18590 ≤ (t + jstOffsetMs) / msPerDay := by
  have h18590 : (18590 : Int) = (minUpdateDateMs + jstOffsetMs) / msPerDay := by decide
  rw [h18590]
  exact Int.ediv_le_ediv (by norm_num [msPerDay]) (by omega)

theorem jstDay_upper {t : Int} (h2 : t ≤ endOfYear9999JstMs) :
    (t + jstOffsetMs) / msPerDay ≤ 2932896 := by
  have hend : (endOfYear9999JstMs + jstOffsetMs) / msPerDay = 2932896 := by decide
  calc (t + jstOffsetMs) / msPerDay ≤ (endOfYear9999JstMs + jstOffsetMs) / msPerDay :=
        Int.ediv_le_ediv (by norm_num [msPerDay]) (by omega)
    _ = 2932896 := hend

/-- In a UTC+9 host environment the segment built by `getUpdatelawlists`
coincides with the specification's UTC+9 `YYYYMMDD` segment. -/
theorem updateSegment_jst_eq (t : Int) : updateSegment 540 t = specUpdateSegment t := by
  have hmd := civilFromDays_month_day_bounds ((t + jstOffsetMs) / msPerDay)
  simp only [updateSegment, jsGetFullYear, jsGetMonth, jsGetDate, localCivil,
    localDay_jst, specUpdateSegment, sub_add_cancel]
  rw [jsPad2_eq_specPad2 _ hmd.1 (le_trans hmd.2.1 (by norm_num)),
    jsPad2_eq_specPad2 _ hmd.2.2.1 hmd.2.2.2]

theorem specUpdateSegment_shape (t : Int) (h1 : minUpdateDateMs ≤ t)
    (h2 : t ≤ endOfYear9999JstMs) :
    (specUpdateSegment t).toList.length = 8 ∧
    ∀ c ∈ (specUpdateSegment t).toList, c.isDigit = true := by
  have hy := civilFromDays_year_bounds _ (jstDay_lower h1) (jstDay_upper h2)
  have hmd := civilFromDays_month_day_bounds ((t + jstOffsetMs) / msPerDay)
  have hyr : intRepr (civilFromDays ((t + jstOffsetMs) / msPerDay)).1 =
      decimalRepr (civilFromDays ((t + jstOffsetMs) / msPerDay)).1.natAbs :=
    intRepr_nonneg_eq _ (by omega)
  constructor
  · simp only [specUpdateSegment, str_toList_append, List.length_append, hyr]
    rw [decimalRepr_length_four (by omega) (by omega),
      specPad2_length _ hmd.1 (le_trans hmd.2.1 (by norm_num)),
      specPad2_length _ hmd.2.2.1 hmd.2.2.2]
  · intro c hc
    simp only [specUpdateSegment, str_toList_append, List.mem_append] at hc
    rcases hc with (hc | hc) | hc
    · rw [hyr] at hc
      exact decimalRepr_all_digits _ c hc
    · exact specPad2_all_digits _ hmd.1 (le_trans hmd.2.1 (by norm_num)) c hc
    · exact specPad2_all_digits _ hmd.2.2.1 hmd.2.2.2 c hc

/-! ## Decoder characterisations -/

theorem result_fromElement_some {e : Node} {c m : Node}
    (hc : e.querySelector "Code" = some c) (hm : e.querySelector "Message" = some m) :
    Result.fromElement e = some { code := jsParseInt c.textContent, message := m.textContent } := by
  simp [Result.fromElement, hc, hm]

theorem result_fromElement_isSome (e : Node) :
    (Result.fromElement e).isSome ↔
      (e.querySelector "Code").isSome ∧ (e.querySelector "Message").isSome := by
  cases hc : e.querySelector "Code" <;> cases hm : e.querySelector "Message" <;>
    simp [Result.fromElement, hc, hm]

theorem lawdata_fromElement_isSome (e : Node) :
    (Lawdata.fromElement e).isSome ↔
      (e.querySelector "LawId").isSome ∧ (e.querySelector "LawNum").isSome ∧
      (e.querySelector "LawFullText").isSome := by
  cases h1 : e.querySelector "LawId" <;> cases h2 : e.querySelector "LawNum" <;>
    cases h3 : e.querySelector "LawFullText" <;> simp [Lawdata.fromElement, h1, h2, h3]

theorem lawdata_fromElement_fields (e : Node) (r : Lawdata)
    (h : Lawdata.fromElement e = some r) :
    r.ImageData = (e.querySelector "ImageData").map Node.textContent := by
  cases h1 : e.querySelector "LawId" <;> cases h2 : e.querySelector "LawNum" <;>
    cases h3 : e.querySelector "LawFullText" <;>
    simp only [Lawdata.fromElement, h1, h2, h3, Option.bind_eq_bind, Option.none_bind,
      Option.some_bind, Option.pure_def, Option.some.injEq] at h <;>
    first
      | exact Option.noConfusion h
      | rw [← h]

theorem articles_fromElement_fields (e : Node) (r : Articles)
    (h : Articles.fromElement e = some r) :
    r.AppdxTableTitleLists = (e.querySelector "AppdxTableTitleLists").map (fun a =>
      { AppdxTableTitle := (a.querySelectorAll "AppdxTableTitle").map Node.textContent }) ∧
    r.ImageData = (e.querySelector "ImageData").map Node.textContent := by
  cases h1 : e.querySelector "LawId" <;> cases h2 : e.querySelector "LawNum" <;>
    cases h3 : e.querySelector "Article" <;> cases h4 : e.querySelector "Paragraph" <;>
    cases h5 : e.querySelector "AppdxTable" <;> cases h6 : e.querySelector "LawContents" <;>
    simp only [Articles.fromElement, h1, h2, h3, h4, h5, h6, Option.bind_eq_bind,
      Option.none_bind, Option.some_bind, Option.pure_def, Option.some.injEq] at h <;>
    first
      | exact Option.noConfusion h
      | (rw [← h]; exact ⟨rfl, rfl⟩)

theorem updatelawlists_fromElement_fields (e : Node) (r : Updatelawlists)
    (h : Updatelawlists.fromElement e = some r) :
    ∃ l, r.LawNameListInfo = some l ∧
      ((e.querySelectorAll "LawNameListInfo" = []) → l = []) := by
  cases h1 : e.querySelector "Date" with
  | none => simp [Updatelawlists.fromElement, h1] at h
  | some d =>
    cases h2 : (e.querySelectorAll "LawNameListInfo").mapM LawNameListInfo2.fromElement with
    | none =>
      simp only [Updatelawlists.fromElement, h1, Option.bind_eq_bind, Option.some_bind] at h
      rw [h2] at h
      simp at h
    | some l =>
      simp only [Updatelawlists.fromElement, h1, h2, Option.bind_eq_bind, Option.some_bind,
        Option.pure_def, Option.some.injEq] at h
      refine ⟨l, ?_, ?_⟩
      · rw [← h]
      · intro hnil
        rw [hnil] at h2
        simp only [List.mapM_nil, Option.pure_def, Option.some.injEq] at h2
        exact h2.symm

theorem mkInfo2Element_decode (a1 a2 a3 a4 a5 a6 a7 a8 a9 a10 a11 a12 a13 a14 a15 : String) :
    LawNameListInfo2.fromElement (mkInfo2Element a1 a2 a3 a4 a5 a6 a7 a8 a9 a10 a11 a12 a13 a14 a15) =
      some { LawTypeName := jsParseInt a1, LawNo := a2, LawName := a3, LawNameKana := a4,
             OldLawName := a5, PromulgationDate := parseYMDJst a6, AmendName := a7,
             AmendNo := a8, AmendPromulgationDate := a9, EnforcementDate := a10,
             EnforcementComment := a11, LawId := a12, LawUrl := a13,
             EnforcementFlg := jsParseInt a14, AuthFlg := jsParseInt a15 } := by
  have h : LawNameListInfo2.fromElement (mkInfo2Element a1 a2 a3 a4 a5 a6 a7 a8 a9 a10 a11 a12 a13 a14 a15) =
      some { LawTypeName := jsParseInt (a1 ++ ""), LawNo := a2 ++ "", LawName := a3 ++ "",
             LawNameKana := a4 ++ "", OldLawName := a5 ++ "",
             PromulgationDate := parseYMDJst (a6 ++ ""), AmendName := a7 ++ "",
             AmendNo := a8 ++ "", AmendPromulgationDate := a9 ++ "",
             EnforcementDate := a10 ++ "", EnforcementComment := a11 ++ "",
             LawId := a12 ++ "", LawUrl := a13 ++ "",
             EnforcementFlg := jsParseInt (a14 ++ ""), AuthFlg := jsParseInt (a15 ++ "") } := rfl
  rw [h]
  simp [String.append_empty]

theorem category_only_decode (s : String) :
    Lawlists.fromElement (Node.elem "ApplData" [leafE "Category" s]) =
      some { Category := jsParseInt s, LawNameListInfo := [] } := by
  have h : Lawlists.fromElement (Node.elem "ApplData" [leafE "Category" s]) =
      some { Category := jsParseInt (s ++ ""), LawNameListInfo := [] } := rfl
  rw [h]
  simp [String.append_empty]

/-! ## Claims -/

/-- C1: for every response envelope, the Law List, Law Data and Update Law
List operations accept only status code 0 and then proceed to payload
decoding, failing with the envelope's message text on every other code
(including a NaN code); the Articles operation accepts exactly the codes
0 and 2 and fails with the message text for every other code. -/
theorem c1_status_code_gating (res : Result) (data : Node) :
    ((res.code = some 0 → processLawlists res data = decodeStep (Lawlists.fromElement data)) ∧
     (res.code ≠ some 0 → processLawlists res data = .error (.protocolError res.message))) ∧
    ((res.code = some 0 → processLawdata res data = decodeStep (Lawdata.fromElement data)) ∧
     (res.code ≠ some 0 → processLawdata res data = .error (.protocolError res.message))) ∧
    ((res.code = some 0 → processUpdatelawlists res data = decodeStep (Updatelawlists.fromElement data)) ∧
     (res.code ≠ some 0 → processUpdatelawlists res data = .error (.protocolError res.message))) ∧
    ((res.code = some 0 ∨ res.code = some 2 →
        processArticles res data = decodeStep (Articles.fromElement data)) ∧
     (res.code ≠ some 0 → res.code ≠ some 2 →
        processArticles res data = .error (.protocolError res.message))) := by
  refine ⟨⟨?_, ?_⟩, ⟨?_, ?_⟩, ⟨?_, ?_⟩, ⟨?_, ?_⟩⟩
  · intro h; simp [processLawlists, h]
  · intro h; simp [processLawlists, h]
  · intro h; simp [processLawdata, h]
  · intro h; simp [processLawdata, h]
  · intro h; simp [processUpdatelawlists, h]
  · intro h; simp [processUpdatelawlists, h]
  · rintro (h | h) <;> simp [processArticles, h]
  · intro h1 h2; simp [processArticles, h1, h2]

theorem c1_status_code_gating_witness :
    processLawlists { code := some 1, message := "m" } (Node.elem "ApplData" []) =
      .error (.protocolError "m") ∧
    processArticles { code := some 2, message := "" } (Node.elem "ApplData" []) =
      decodeStep (Articles.fromElement (Node.elem "ApplData" [])) :=
  ⟨(c1_status_code_gating { code := some 1, message := "m" } (Node.elem "ApplData" [])).1.2
      (by decide),
   (c1_status_code_gating { code := some 2, message := "" } (Node.elem "ApplData" [])).2.2.2.1
      (Or.inr rfl)⟩

/-- C2: `getUpdatelawlists` rejects a date before 2020-11-24T00:00+09:00
with the "too early" reason and a date after the current instant with the
distinct "future date" reason, in both cases uniformly in the transport
(so before any network call); every date inside the inclusive range
proceeds to the transport call on the built URI. -/
theorem c2_update_date_range (tzMin nowMs dMs : Int) (transport : String → Result × Node) :
    (dMs < minUpdateDateMs →
      getUpdatelawlists tzMin nowMs transport dMs = .error (.rangeError tooEarlyMsg)) ∧
    (minUpdateDateMs ≤ dMs → nowMs < dMs →
      getUpdatelawlists tzMin nowMs transport dMs = .error (.rangeError futureMsg)) ∧
    (minUpdateDateMs ≤ dMs → dMs ≤ nowMs →
      getUpdatelawlists tzMin nowMs transport dMs =
        processUpdatelawlists (transport (updateUri tzMin dMs)).1
          (transport (updateUri tzMin dMs)).2) ∧
    tooEarlyMsg ≠ futureMsg := by
  refine ⟨?_, ?_, ?_, by decide⟩
  · intro h
    rw [getUpdatelawlists, if_pos h]
  · intro h1 h2
    rw [getUpdatelawlists, if_neg (by omega), if_pos h2]
  · intro h1 h2
    rw [getUpdatelawlists, if_neg (by omega), if_neg (by omega)]

theorem c2_update_date_range_witness :
    (getUpdatelawlists 540 minUpdateDateMs
        (fun _ => ({ code := some 0, message := "" }, Node.elem "ApplData" []))
        (minUpdateDateMs - 1) = .error (.rangeError tooEarlyMsg)) ∧
    (getUpdatelawlists 540 minUpdateDateMs
        (fun _ => ({ code := some 0, message := "" }, Node.elem "ApplData" []))
        (minUpdateDateMs + 1) = .error (.rangeError futureMsg)) :=
  ⟨(c2_update_date_range 540 minUpdateDateMs (minUpdateDateMs - 1)
      (fun _ => ({ code := some 0, message := "" }, Node.elem "ApplData" []))).1 (by omega),
   (c2_update_date_range 540 minUpdateDateMs (minUpdateDateMs + 1)
      (fun _ => ({ code := some 0, message := "" }, Node.elem "ApplData" []))).2.1
      (by omega) (by omega)⟩

/-- C3 (counterexample): for the valid input 2020-11-24T00:00+09:00 itself,
a host whose local offset is UTC (offset 0) builds the segment `20201123`,
not the UTC+9 calendar date `20201124` required by the claim — the
encoder's `getFullYear`/`getMonth`/`getDate` observe host local time. -/
theorem c3_update_segment_counterexample :
    minUpdateDateMs ≤ minUpdateDateMs ∧
    updateSegment 0 minUpdateDateMs = "20201123" ∧
    specUpdateSegment minUpdateDateMs = "20201124" ∧
    updateSegment 0 minUpdateDateMs ≠ specUpdateSegment minUpdateDateMs := by
  exact ⟨le_rfl, by decide, by decide, by decide⟩

/-- C3 (amended): for every valid date input (between the minimum and
`now`, and up to year 9999), the segment built by `getUpdatelawlists` is
the 8-digit zero-padded `YYYYMMDD` of the input's calendar date in the
host's local time zone; in the intended UTC+9 host environment (offset
540 minutes) it therefore equals the UTC+9 calendar date of the spec. -/
theorem c3_update_segment_local_date (nowMs dMs : Int)
    (h1 : minUpdateDateMs ≤ dMs) (h2 : dMs ≤ nowMs) (h3 : dMs ≤ endOfYear9999JstMs) :
    updateSegment 540 dMs = specUpdateSegment dMs ∧
    (updateSegment 540 dMs).toList.length = 8 ∧
    ∀ c ∈ (updateSegment 540 dMs).toList, c.isDigit = true := by
  obtain ⟨hl, hd⟩ := specUpdateSegment_shape dMs h1 h3
  refine ⟨updateSegment_jst_eq dMs, ?_, ?_⟩
  · rw [updateSegment_jst_eq]; exact hl
  · rw [updateSegment_jst_eq]; exact hd

theorem c3_update_segment_local_date_witness :
    minUpdateDateMs ≤ minUpdateDateMs ∧ minUpdateDateMs ≤ endOfYear9999JstMs ∧
    (updateSegment 540 minUpdateDateMs = specUpdateSegment minUpdateDateMs ∧
     (updateSegment 540 minUpdateDateMs).toList.length = 8 ∧
     ∀ c ∈ (updateSegment 540 minUpdateDateMs).toList, c.isDigit = true) :=
  ⟨le_rfl, by decide,
   c3_update_segment_local_date minUpdateDateMs minUpdateDateMs le_rfl le_rfl (by decide)⟩

/-- C4 (counterexample): decoding `"20201124"` does yield the instant
2020-11-24T00:00+09:00, but re-extracting year/month/day the way the
update-list encoder does depends on the host offset: at UTC (offset 0)
it yields `"20201123"`, so the round trip does not reproduce the input. -/
theorem c4_promulgation_roundtrip_counterexample :
    parseYMDJst "20201124" = some minUpdateDateMs ∧
    updateSegment 0 minUpdateDateMs = "20201123" ∧
    updateSegment 0 minUpdateDateMs ≠ "20201124" := by
  exact ⟨by decide, by decide, by decide⟩

/-- C4 (amended): decoding the digits `"20201124"` as the List Entry
decoder does yields exactly the instant 2020-11-24T00:00:00.000 at the
fixed UTC+9 offset, and in a UTC+9 host environment re-extracting year,
month and day the way the update-list encoder does reproduces
`"20201124"`. -/
theorem c4_promulgation_roundtrip_jst :
    parseYMDJst "20201124" = some minUpdateDateMs ∧
    updateSegment 540 minUpdateDateMs = "20201124" := by
  exact ⟨by decide, by decide⟩

/-- C5 (counterexample): a `Code` text that is not a parseable integer
does not make `Result.fromElement` fail — the decoder still returns a
record, carrying the NaN code. -/
theorem c5_result_decoder_counterexample :
    jsParseInt "abc" = none ∧
    Result.fromElement resultElemBadCode = some { code := none, message := "m" } := by
  exact ⟨by decide, by decide⟩

/-- C5 (amended): `Result.fromElement` returns the envelope's `Code`
parsed by `parseInt` (NaN, i.e. `none`, when not parseable) and `Message`
as text, and fails exactly when the `Code` or the `Message` child is
absent — a non-parseable `Code` text does not prevent the record. -/
theorem c5_result_decoder (e : Node) :
    ((Result.fromElement e).isSome ↔
      (e.querySelector "Code").isSome ∧ (e.querySelector "Message").isSome) ∧
    (∀ c m, e.querySelector "Code" = some c → e.querySelector "Message" = some m →
      Result.fromElement e =
        some { code := jsParseInt c.textContent, message := m.textContent }) :=
  ⟨result_fromElement_isSome e, fun _ _ hc hm => result_fromElement_some hc hm⟩

theorem c5_result_decoder_witness :
    Result.fromElement resultElemBadCode =
      some { code := jsParseInt (leafE "Code" "abc").textContent,
             message := (leafE "Message" "m").textContent } :=
  (c5_result_decoder resultElemBadCode).2 (leafE "Code" "abc") (leafE "Message" "m") rfl rfl

/-- C6: a payload element from which a required child is absent (here the
Law Data payload, with `LawId`/`LawNum`/`LawFullText` required) makes the
decoder fail; it never returns a record with a silently-missing required
field: the decode succeeds exactly when all three required children are
present, and in particular an absent `LawId` forces failure. -/
theorem c6_required_child_decode_failure (e : Node) :
    ((Lawdata.fromElement e).isSome ↔
      (e.querySelector "LawId").isSome ∧ (e.querySelector "LawNum").isSome ∧
      (e.querySelector "LawFullText").isSome) ∧
    (e.querySelector "LawId" = none → Lawdata.fromElement e = none) := by
  refine ⟨lawdata_fromElement_isSome e, fun h => ?_⟩
  have hiff := lawdata_fromElement_isSome e
  rw [h] at hiff
  simp only [Option.isSome_none, Bool.false_eq_true, false_and, iff_false,
    Bool.not_eq_true] at hiff
  exact Option.not_isSome_iff_eq_none.mp (by simp [hiff])

theorem c6_required_child_decode_failure_witness :
    Lawdata.fromElement lawdataElemMissingId = none :=
  (c6_required_child_decode_failure lawdataElemMissingId).2 rfl

/-- C7: the Articles request encoding maps each present field to a
`key=value` segment and joins the segments with `;` in the declared
(insertion) order; with the article field `"3"` alone the segment is
`article=3`, and together with paragraph `"2"` it is
`article=3;paragraph=2`. -/
theorem c7_articles_param_encoding :
    articlesParamSegment [("article", "3")] = "article=3" ∧
    articlesParamSegment [("article", "3"), ("paragraph", "2")] = "article=3;paragraph=2" ∧
    articlesUri [("lawId", "X"), ("article", "3")] =
      "https://elaws.e-gov.go.jp/api/1/articles;lawId=X;article=3" ∧
    ∀ params : List (String × String),
      articlesParamSegment params =
        String.intercalate ";" (params.map fun kv => kv.1 ++ "=" ++ kv.2) :=
  ⟨by decide, by decide, by decide, fun _ => rfl⟩

/-- C8: when the source element of an optional field is absent from the
payload, the decoded record's field is absent (`none`), never an empty
placeholder: `ImageData` and `AppdxTableTitleLists` in Articles, and
`ImageData` in Law Data. -/
theorem c8_optional_fields_absent (e : Node) :
    (∀ r, Articles.fromElement e = some r →
      (e.querySelector "ImageData" = none → r.ImageData = none) ∧
      (e.querySelector "AppdxTableTitleLists" = none → r.AppdxTableTitleLists = none)) ∧
    (∀ r, Lawdata.fromElement e = some r →
      e.querySelector "ImageData" = none → r.ImageData = none) := by
  constructor
  · intro r h
    obtain ⟨ha, hi⟩ := articles_fromElement_fields e r h
    constructor
    · intro hn; rw [hi, hn]; rfl
    · intro hn; rw [ha, hn]; rfl
  · intro r h hn
    rw [lawdata_fromElement_fields e r h, hn]
    rfl

theorem c8_optional_fields_absent_witness :
    articlesRecNoOptionals.ImageData = none ∧
    articlesRecNoOptionals.AppdxTableTitleLists = none :=
  ⟨((c8_optional_fields_absent articlesElemNoOptionals).1 articlesRecNoOptionals
      (by decide)).1 rfl,
   ((c8_optional_fields_absent articlesElemNoOptionals).1 articlesRecNoOptionals
      (by decide)).2 rfl⟩

/-- C9: the integer-valued enumerated fields (`Category` of the law list,
`LawTypeName`, `EnforcementFlg` and `AuthFlg` of an updated-law entry)
are decoded leniently: for every integer value carried in the element
text — also values outside the known enumerations — the decoder returns
the integer unchanged and never rejects the payload because of it. -/
theorem c9_lenient_enum_decoding (vc vt ve va : Int)
    (lawNo lawName lawNameKana oldLawName promDate amendName amendNo amendProm
      enfDate enfComment lawId lawUrl : String) :
    LawNameListInfo2.fromElement
        (mkInfo2Element (intRepr vt) lawNo lawName lawNameKana oldLawName promDate
          amendName amendNo amendProm enfDate enfComment lawId lawUrl
          (intRepr ve) (intRepr va)) =
      some { LawTypeName := some vt, LawNo := lawNo, LawName := lawName,
             LawNameKana := lawNameKana, OldLawName := oldLawName,
             PromulgationDate := parseYMDJst promDate, AmendName := amendName,
             AmendNo := amendNo, AmendPromulgationDate := amendProm,
             EnforcementDate := enfDate, EnforcementComment := enfComment,
             LawId := lawId, LawUrl := lawUrl, EnforcementFlg := some ve,
             AuthFlg := some va } ∧
    Lawlists.fromElement (Node.elem "ApplData" [leafE "Category" (intRepr vc)]) =
      some { Category := some vc, LawNameListInfo := [] } := by
  constructor
  · rw [mkInfo2Element_decode, jsParseInt_intRepr, jsParseInt_intRepr, jsParseInt_intRepr]
  · rw [category_only_decode, jsParseInt_intRepr]

/-- C10: the Update Law List decoder always assigns the optional
`LawNameListInfo` field a list — the empty list when no matching child
exists — so the field is never absent in a decoded record. -/
theorem c10_update_list_always_some (e : Node) (r : Updatelawlists)
    (h : Updatelawlists.fromElement e = some r) :
    (∃ l, r.LawNameListInfo = some l) ∧
    (e.querySelectorAll "LawNameListInfo" = [] → r.LawNameListInfo = some []) := by
  obtain ⟨l, hl, hnil⟩ := updatelawlists_fromElement_fields e r h
  exact ⟨⟨l, hl⟩, fun hn => by rw [hl, hnil hn]⟩

theorem c10_update_list_always_some_witness :
    (∃ l, updateRecNoInfos.LawNameListInfo = some l) ∧
    (updateElemNoInfos.querySelectorAll "LawNameListInfo" = [] →
      updateRecNoInfos.LawNameListInfo = some []) :=
  c10_update_list_always_some updateElemNoInfos updateRecNoInfos (by decide)
